import Mathlib

/-!
Verification development for the entire-cli session-tracking and checkpoint
engine.  The Lean definitions below are a shallow embedding of the Go source:

* `TruncateRunes` embeds `stringutil.TruncateRunes` (strings are modelled as
  their codepoint sequences, `List Char`, exactly as Go's `[]rune(s)`
  conversion produces; `maxRunes` is a Go `int`, modelled as `Int`).
* `strategiesBlockingMain` / `strategiesAllowingMain` and the expected
  rewind-point counts embed the default-branch integration test suite.
* `runResetCmd` / `handleStrategyDoesNotSupportReset` embed the `reset`
  command (`reset.go`); the optional `SessionResetter` capability obtained by
  Go type assertion is modelled as an `Option` of a state transformer.
* The metadata-branch store (`WriteCommitted`, `UpdateCommitted`,
  `ReadCommitted`, `ReadSessionContent`) whose implementation lives outside
  the files at hand is modelled from the specification, section 4.D; each of
  those definitions carries a doc comment saying exactly what was modelled.
-/

/-- Strategy name constant for the manual-commit strategy. -/
def StrategyNameManualCommit : String := "manual-commit"

/-- Strategy name constant for the auto-commit strategy. -/
def StrategyNameAutoCommit : String := "auto-commit"

/-- Embeds `strategiesBlockingMain` from the default-branch integration test
file: strategies that should NOT work on the main branch.  The source returns
the empty slice ("Currently all strategies are allowed on main branch"). -/
def strategiesBlockingMain : List String := []

/-- Embeds `strategiesAllowingMain` from the default-branch integration test
file: strategies that SHOULD work on the main branch.  The source returns
both strategy names ("All strategies now support working on main branch"). -/
def strategiesAllowingMain : List String :=
  [StrategyNameManualCommit, StrategyNameAutoCommit]

/-- Expected `GetRewindPoints()` length after one turn (prompt_submit, file
write, stop) executed on the default branch, as asserted by the integration
tests: `TestDefaultBranch_SkipsOnMain_BlockingStrategies` expects 0 for every
strategy in `strategiesBlockingMain`, and
`TestDefaultBranch_WorksOnMain_ShadowStrategies` expects 1 for every strategy
in `strategiesAllowingMain`. -/
def expectedTurnRewindPointsOnMain (s : String) : Option Nat :=
  if strategiesBlockingMain.contains s then some 0
  else if strategiesAllowingMain.contains s then some 1
  else none

/-- Expected `GetRewindPoints()` length after a nested task (prompt_submit,
pre_task, file write, post_task) executed on the default branch, as asserted
by the integration tests: `TestDefaultBranch_PostTaskSkipsOnMain_BlockingStrategies`
expects 0 for strategies in `strategiesBlockingMain`, and
`TestDefaultBranch_PostTaskWorksOnMain_ShadowStrategies` expects 2 (starting +
completed checkpoints) for strategies in `strategiesAllowingMain`. -/
def expectedTaskRewindPointsOnMain (s : String) : Option Nat :=
  if strategiesBlockingMain.contains s then some 0
  else if strategiesAllowingMain.contains s then some 2
  else none

/-- Embeds `stringutil.TruncateRunes`.  Go decodes the string into its rune
(codepoint) sequence; here the input is already that sequence.  `maxRunes` is
a Go `int`, so it is modelled as `Int` (it may be negative).  Mirrors the
source line by line: if the rune count is within the bound the string is
returned unchanged; otherwise `truncateAt = maxRunes - len(suffixRunes)`
clamped at zero, and the result is the first `truncateAt` runes followed by
the suffix. -/
def TruncateRunes (s : List Char) (maxRunes : Int) (suffix : List Char) : List Char :=
  if (s.length : Int) ≤ maxRunes then s
  else
    let truncateAt : Int := maxRunes - (suffix.length : Int)
    let clamped : Int := if truncateAt < 0 then 0 else truncateAt
    s.take clamped.toNat ++ suffix

/-- UTF-8 encoding of a single codepoint (the encoding Go's `string(runes)`
conversion produces), used to state byte-level codepoint-boundary facts about
`TruncateRunes`. -/
def utf8EncodeChar (c : Char) : List Nat :=
  let n := c.toNat
  if n < 128 then [n]
  else if n < 2048 then [192 + n / 64, 128 + n % 64]
  else if n < 65536 then [224 + n / 4096, 128 + (n / 64) % 64, 128 + n % 64]
  else [240 + n / 262144, 128 + (n / 4096) % 64, 128 + (n / 64) % 64, 128 + n % 64]

/-- UTF-8 byte sequence of a codepoint sequence. -/
def utf8EncodeList (s : List Char) : List Nat :=
  (s.map utf8EncodeChar).flatten

theorem utf8EncodeList_append (a b : List Char) :
    utf8EncodeList (a ++ b) = utf8EncodeList a ++ utf8EncodeList b := by
  simp [utf8EncodeList]

/-- Modelled from the spec: a SessionEntry of a committed checkpoint on the
metadata branch (section 4.D layout `<XX>/<YYYYY>/<n>/`).  The store
implementation is not among the files at hand (only its tests are), so the
entry is modelled from the specification data model: per-entry
`metadata.json` carries `session_id` and the strategy, the artifact files
are the transcript (`full.jsonl`, a byte string), the serialized prompts
file (`prompt.txt`), the context (`context.md`) and `content_hash.txt`. -/
structure SessionEntry where
  sessionId : String
  strategy : String
  filesTouched : List String
  transcript : List Nat
  promptsFile : String
  contextBytes : List Nat
  contentHash : String
deriving Repr, DecidableEq

/-- Modelled from the spec: one committed checkpoint tree on the metadata
branch — its identity and its ordered, numbered SessionEntry subdirectories
(index 0 is the primary entry). -/
structure CheckpointRecord where
  checkpointId : String
  sessions : List SessionEntry
deriving Repr, DecidableEq

/-- Modelled from the spec: the error taxonomy of the metadata branch store
(section 4.D): NotFound, InvalidCheckpointID, CorruptContentHash,
GitWriteFailure, plus AlreadyExists for WriteCommitted collisions. -/
inductive StoreError where
  | notFound
  | invalidCheckpointID
  | alreadyExists
  | corruptContentHash
  | gitWriteFailure
deriving Repr, DecidableEq

/-- Byte sequence of a string (UTF-8-free model: codepoint values; only
determinism and injectivity on the tested data matter for the digest). -/
def strBytes (s : String) : List Nat := s.toList.map Char.toNat

/-- Modelled from the spec: the prompts file serialization.  The update test
suite fixes the format: elements joined by a blank line, three hyphens and a
blank line; the empty list serializes as zero bytes (spec section 8). -/
def joinPrompts : List String → String
  | [] => ""
  | [p] => p
  | p :: q :: r => p ++ "\n\n---\n\n" ++ joinPrompts (q :: r)

/-- Insertion of a string into a ≤-sorted list, for the canonical
`files_touched sorted` ordering of the content-hash payload. -/
def insertSorted (a : String) : List String → List String
  | [] => [a]
  | b :: r => if a ≤ b then a :: b :: r else b :: insertSorted a r

/-- Sorts a list of strings (insertion sort), used to canonicalize
`files_touched` before hashing, per spec invariant 4. -/
def sortStrings (l : List String) : List String := l.foldr insertSorted []

/-- Modelled from the spec: the canonicalization of a SessionEntry payload
that is digested into `content_hash.txt` — spec invariant 4: a deterministic
digest over the transcript, prompts, context and the sorted `files_touched`.
Fields are separated by a 0 byte. -/
def canonicalPayload (transcript : List Nat) (promptsFile : String)
    (contextBytes : List Nat) (filesTouched : List String) : List Nat :=
  transcript ++ [0] ++ strBytes promptsFile ++ [0] ++ contextBytes ++ [0] ++
    (sortStrings filesTouched).foldr (fun f acc => strBytes f ++ [0] ++ acc) []

/-- One step of the modelled digest (64-bit multiply-accumulate). -/
def digestStep (h b : Nat) : Nat := (h * 131 + b) % 18446744073709551616

/-- Modelled from the spec: the digest over the canonical payload.  The spec
prescribes SHA-256 of a canonicalization it does not spell out; since the
hashing code is not among the files at hand, the digest is modelled as a
fixed executable deterministic function of the canonical payload — the
claims under verification depend only on the hash being deterministic and
recomputed from the post-update payload, not on the SHA-256 compression
function itself. -/
def digestBytes (bs : List Nat) : Nat := bs.foldl digestStep 5381

/-- Lowercase hexadecimal rendering of a natural number. -/
def toHex (n : Nat) : String := String.mk (Nat.toDigits 16 n)

/-- Modelled from the spec: `content_hash.txt` content — the string
`sha256:` followed by the lowercase hex digest of the canonical payload. -/
def contentHashOf (transcript : List Nat) (promptsFile : String)
    (contextBytes : List Nat) (filesTouched : List String) : String :=
  "sha256:" ++ toHex (digestBytes (canonicalPayload transcript promptsFile contextBytes filesTouched))

/-- The stored-hash invariant of a SessionEntry: `content_hash.txt` equals
the digest recomputed over the entry's current payload. -/
def hashInvariant (e : SessionEntry) : Prop :=
  e.contentHash = contentHashOf e.transcript e.promptsFile e.contextBytes e.filesTouched

/-- Modelled from the spec: options of `WriteCommitted` (section 4.D):
checkpoint_id, session_id, strategy, transcript, prompts, context,
files_touched (author identity does not affect stored session content and is
omitted). -/
structure WriteCommittedOptions where
  checkpointId : String
  sessionId : String
  strategy : String
  transcript : List Nat
  prompts : List String
  contextBytes : List Nat
  filesTouched : List String
deriving Repr, DecidableEq

/-- Modelled from the spec: options of `UpdateCommitted` (section 4.D):
checkpoint_id, session_id and the optional replacement transcript, prompts
and context (a `none` field is left untouched, mirroring the nil-slice
convention of the Go options struct). -/
structure UpdateCommittedOptions where
  checkpointId : String
  sessionId : String
  transcript : Option (List Nat)
  prompts : Option (List String)
  contextBytes : Option (List Nat)
deriving Repr, DecidableEq

/-- Modelled from the spec: the metadata branch, as the ordered collection of
committed checkpoint trees (the branch never intersects a working tree, so
its observable state is exactly these records). -/
def MetadataBranch := List CheckpointRecord

/-- The primary SessionEntry created by `WriteCommitted`: artifacts from the
options, prompts serialized by `joinPrompts`, `content_hash.txt` digested
over the entry payload. -/
def writeEntry (opts : WriteCommittedOptions) : SessionEntry :=
  { sessionId := opts.sessionId
    strategy := opts.strategy
    filesTouched := opts.filesTouched
    transcript := opts.transcript
    promptsFile := joinPrompts opts.prompts
    contextBytes := opts.contextBytes
    contentHash := contentHashOf opts.transcript (joinPrompts opts.prompts)
      opts.contextBytes opts.filesTouched }

/-- Modelled from the spec: `WriteCommitted` creates the checkpoint tree with
its primary SessionEntry at index 0; fails `AlreadyExists` if the path is
occupied, `InvalidCheckpointID` on an empty id; writes `content_hash.txt`
over the entry payload. -/
def WriteCommitted (store : List CheckpointRecord) (opts : WriteCommittedOptions) :
    Except StoreError (List CheckpointRecord) :=
  if opts.checkpointId = "" then .error .invalidCheckpointID
  else
    match store.find? (fun r => r.checkpointId == opts.checkpointId) with
    | some _ => .error .alreadyExists
    | none =>
      .ok (store ++ [{ checkpointId := opts.checkpointId, sessions := [writeEntry opts] }])

/-- Index of the first SessionEntry whose `session_id` matches, if any. -/
def findSessionIdx (sid : String) : List SessionEntry → Option Nat
  | [] => none
  | e :: rest =>
    if e.sessionId == sid then some 0
    else (findSessionIdx sid rest).map (· + 1)

/-- Modelled from the spec: `UpdateCommitted` locates the target SessionEntry
by matching `session_id`; if not found, falls back to index 0 (latest). -/
def resolveSessionIdx (cp : CheckpointRecord) (sid : String) : Nat :=
  match findSessionIdx sid cp.sessions with
  | some i => i
  | none => 0

/-- Modelled from the spec: replace semantics of one SessionEntry under
`UpdateCommitted` — provided fields replace the old content (never append),
untouched metadata fields are preserved, and `content_hash.txt` is rewritten
over the post-update payload. -/
def applySessionUpdate (e : SessionEntry) (opts : UpdateCommittedOptions) : SessionEntry :=
  let t := match opts.transcript with | some t => t | none => e.transcript
  let p := match opts.prompts with | some ps => joinPrompts ps | none => e.promptsFile
  let c := match opts.contextBytes with | some c => c | none => e.contextBytes
  { sessionId := e.sessionId
    strategy := e.strategy
    filesTouched := e.filesTouched
    transcript := t
    promptsFile := p
    contextBytes := c
    contentHash := contentHashOf t p c e.filesTouched }

/-- Modelled from the spec: `UpdateCommitted` (section 4.D).  Fails
`InvalidCheckpointID` on an empty id and `NotFound` when the checkpoint is
absent from the metadata branch; otherwise resolves the target entry
(`resolveSessionIdx`), replaces it in place and preserves the root summary
identity and every other entry. -/
def UpdateCommitted (store : List CheckpointRecord) (opts : UpdateCommittedOptions) :
    Except StoreError (List CheckpointRecord) :=
  if opts.checkpointId = "" then .error .invalidCheckpointID
  else
    match store.find? (fun r => r.checkpointId == opts.checkpointId) with
    | none => .error .notFound
    | some cp =>
      match cp.sessions[resolveSessionIdx cp opts.sessionId]? with
      | none => .error .notFound
      | some e =>
        .ok (store.map (fun r =>
          if r.checkpointId == opts.checkpointId then
            { checkpointId := r.checkpointId,
              sessions := cp.sessions.set (resolveSessionIdx cp opts.sessionId)
                (applySessionUpdate e opts) }
          else r))

/-- The state of the metadata branch after an `UpdateCommitted` call: the new
store on success, the unchanged store on error (errors cause no partial
write, spec section 5: interruption yields pre-state or post-state). -/
def UpdateCommittedState (store : List CheckpointRecord) (opts : UpdateCommittedOptions) :
    List CheckpointRecord :=
  match UpdateCommitted store opts with
  | .ok s => s
  | .error _ => store

/-- Modelled from the spec: the session content returned by
`ReadSessionContent` — transcript bytes, prompts text, context, and the
entry metadata (session_id, strategy) read back from the entry. -/
structure SessionContent where
  transcript : List Nat
  promptsText : String
  contextText : List Nat
  metaSessionId : String
  metaStrategy : String
deriving Repr, DecidableEq

/-- Projection of a stored SessionEntry to its readable content. -/
def entryContent (e : SessionEntry) : SessionContent :=
  { transcript := e.transcript
    promptsText := e.promptsFile
    contextText := e.contextBytes
    metaSessionId := e.sessionId
    metaStrategy := e.strategy }

/-- Modelled from the spec: `ReadSessionContent(checkpoint_id, session_index)`
reads one numbered SessionEntry of a committed checkpoint. -/
def ReadSessionContent (store : List CheckpointRecord) (cpId : String) (idx : Nat) :
    Except StoreError SessionContent :=
  match store.find? (fun r => r.checkpointId == cpId) with
  | none => .error .notFound
  | some cp =>
    match cp.sessions[idx]? with
    | none => .error .notFound
    | some e => .ok (entryContent e)

/-- Modelled from the spec: the root CheckpointSummary identity observable
through `ReadCommitted` — the checkpoint_id and the ordered session entries
(identified by their session ids, in subdirectory order). -/
structure CheckpointSummary where
  checkpointId : String
  sessionIds : List String
deriving Repr, DecidableEq

/-- Modelled from the spec: `ReadCommitted(checkpoint_id)` reads the root
aggregated summary of a committed checkpoint. -/
def ReadCommitted (store : List CheckpointRecord) (cpId : String) :
    Except StoreError CheckpointSummary :=
  match store.find? (fun r => r.checkpointId == cpId) with
  | none => .error .notFound
  | some cp =>
    .ok { checkpointId := cp.checkpointId, sessionIds := cp.sessions.map (·.sessionId) }

/-- Embeds the CLI error wrapper: `NewSilentError` produces a silent typed
error (message already printed); other command failures are plain wrapped
errors. -/
inductive CmdError where
  | silent (msg : String)
  | plain (msg : String)
deriving Repr, DecidableEq

/-- Embeds `handleStrategyDoesNotSupportReset` from `reset.go`: the lines
written to stderr and the typed silent error returned, per strategy name.
For the auto-commit strategy the explanation names `git reset --hard` as the
alternative; any other unsupported strategy gets the generic message naming
the strategy. -/
def handleStrategyDoesNotSupportReset (strategyName : String) : List String × CmdError :=
  if strategyName == StrategyNameAutoCommit then
    (["The auto-commit strategy doesn\x27t use shadow branches.",
      "To reset your branch, use Git directly:",
      "  git reset --hard <commit>"],
     .silent "auto-commit strategy does not support reset")
  else
    (["The " ++ strategyName ++ " strategy does not support reset."],
     .silent ("strategy " ++ strategyName ++ " does not support reset"))

/-- The mutable state the reset command may touch: shadow branch refs and
session state files (the only state `ManualCommitStrategy.Reset` deletes). -/
structure ResetState where
  shadowBranches : List String
  sessionFiles : List String
deriving Repr, DecidableEq

/-- Embeds the `RunE` body of `newResetCmd` from `reset.go`.  The Go code
feature-detects the optional `SessionResetter` capability with a type
assertion; that capability is modelled as an `Option` of a state
transformer.  Outside a git repository the command reports and returns a
silent error; when the strategy lacks the capability it delegates to
`handleStrategyDoesNotSupportReset` and touches no state; otherwise it calls
the strategy resetter and wraps its error. -/
def runResetCmd (st : ResetState) (inRepo : Bool) (strategyName : String)
    (resetter : Option (Bool → ResetState → ResetState × Option CmdError))
    (force : Bool) : ResetState × List String × Option CmdError :=
  if inRepo = false then
    (st, ["Not a git repository."], some (.silent "not a git repository"))
  else
    match resetter with
    | none =>
      let out := handleStrategyDoesNotSupportReset strategyName
      (st, out.1, some out.2)
    | some f =>
      let res := f force st
      match res.2 with
      | some _ => (res.1, [], some (.plain "reset failed"))
      | none => (res.1, [], none)

theorem find?_map_preserveId (store : List CheckpointRecord) (cpId : String)
    (f : CheckpointRecord → CheckpointRecord)
    (hf : ∀ r, (f r).checkpointId = r.checkpointId) :
    (store.map f).find? (fun r => r.checkpointId == cpId)
      = (store.find? (fun r => r.checkpointId == cpId)).map f := by
  induction store with
  | nil => rfl
  | cons a l ih =>
    simp only [List.map_cons, List.find?]
    rw [hf a]
    cases h : (a.checkpointId == cpId) with
    | false => simpa using ih
    | true => rfl

theorem map_set_invariant {α : Type} (f : SessionEntry → α) (l : List SessionEntry)
    (i : Nat) (e e' : SessionEntry) (hg : l[i]? = some e) (hf : f e' = f e) :
    (l.set i e').map f = l.map f := by
  induction l generalizing i with
  | nil => simp at hg
  | cons a t ih =>
    cases i with
    | zero =>
      simp only [List.getElem?_cons_zero, Option.some.injEq] at hg
      subst hg
      simp [List.set, hf]
    | succ n =>
      simp only [List.getElem?_cons_succ] at hg
      simp [List.set, ih n hg]

theorem resolveSessionIdx_of_none (cp : CheckpointRecord) (sid : String)
    (h : findSessionIdx sid cp.sessions = none) : resolveSessionIdx cp sid = 0 := by
  simp [resolveSessionIdx, h]

theorem applySessionUpdate_sessionId (e : SessionEntry) (opts : UpdateCommittedOptions) :
    (applySessionUpdate e opts).sessionId = e.sessionId := rfl

theorem applySessionUpdate_strategy (e : SessionEntry) (opts : UpdateCommittedOptions) :
    (applySessionUpdate e opts).strategy = e.strategy := rfl

theorem applySessionUpdate_transcript_of_some (e : SessionEntry)
    (opts : UpdateCommittedOptions) (T : List Nat) (h : opts.transcript = some T) :
    (applySessionUpdate e opts).transcript = T := by
  simp [applySessionUpdate, h]

theorem applySessionUpdate_prompts_of_some (e : SessionEntry)
    (opts : UpdateCommittedOptions) (ps : List String) (h : opts.prompts = some ps) :
    (applySessionUpdate e opts).promptsFile = joinPrompts ps := by
  simp [applySessionUpdate, h]

theorem applySessionUpdate_hash (e : SessionEntry) (opts : UpdateCommittedOptions) :
    hashInvariant (applySessionUpdate e opts) := by
  simp only [applySessionUpdate, hashInvariant]

theorem updateCommitted_ok_elim (store : List CheckpointRecord)
    (opts : UpdateCommittedOptions) (store' : List CheckpointRecord)
    (h : UpdateCommitted store opts = .ok store') :
    ∃ cp e,
      (¬ opts.checkpointId = "") ∧
      store.find? (fun r => r.checkpointId == opts.checkpointId) = some cp ∧
      cp.sessions[resolveSessionIdx cp opts.sessionId]? = some e ∧
      store' = store.map (fun r =>
        if r.checkpointId == opts.checkpointId then
          { checkpointId := r.checkpointId,
            sessions := cp.sessions.set (resolveSessionIdx cp opts.sessionId)
              (applySessionUpdate e opts) }
        else r) := by
  unfold UpdateCommitted at h
  split at h
  · cases h
  next hid =>
    split at h
    · cases h
    next cp hfind =>
      split at h
      · cases h
      next e hget =>
        refine ⟨cp, e, hid, hfind, hget, ?_⟩
        cases h
        rfl

theorem find?_after_update (store : List CheckpointRecord)
    (opts : UpdateCommittedOptions) (cp : CheckpointRecord) (newSessions : List SessionEntry)
    (hfind : store.find? (fun r => r.checkpointId == opts.checkpointId) = some cp) :
    (store.map (fun r =>
        if r.checkpointId == opts.checkpointId then
          { checkpointId := r.checkpointId, sessions := newSessions }
        else r)).find? (fun r => r.checkpointId == opts.checkpointId)
      = some { checkpointId := cp.checkpointId, sessions := newSessions } := by
  rw [find?_map_preserveId]
  · rw [hfind]
    have hp := List.find?_some hfind
    simp only at hp
    dsimp only [Option.map]
    rw [if_pos hp]
  · intro r
    dsimp only
    split <;> rfl

theorem updateCommitted_read (store : List CheckpointRecord)
    (opts : UpdateCommittedOptions) (store' : List CheckpointRecord)
    (h : UpdateCommitted store opts = .ok store') :
    ∃ cp e,
      store.find? (fun r => r.checkpointId == opts.checkpointId) = some cp ∧
      cp.sessions[resolveSessionIdx cp opts.sessionId]? = some e ∧
      ReadSessionContent store' opts.checkpointId (resolveSessionIdx cp opts.sessionId)
        = .ok (entryContent (applySessionUpdate e opts)) ∧
      ReadCommitted store' opts.checkpointId = ReadCommitted store opts.checkpointId ∧
      (∀ i, ¬ i = resolveSessionIdx cp opts.sessionId →
        ReadSessionContent store' opts.checkpointId i
          = ReadSessionContent store opts.checkpointId i) := by
  obtain ⟨cp, e, _, hfind, hget, hstore⟩ := updateCommitted_ok_elim store opts store' h
  have hlt : resolveSessionIdx cp opts.sessionId < cp.sessions.length :=
    (List.getElem?_eq_some.mp hget).1
  have hfind' := find?_after_update store opts cp
    (cp.sessions.set (resolveSessionIdx cp opts.sessionId) (applySessionUpdate e opts))
    hfind
  refine ⟨cp, e, hfind, hget, ?_, ?_, ?_⟩
  · rw [ReadSessionContent, hstore, hfind']
    simp [List.getElem?_set_eq_of_lt _ hlt]
  · rw [ReadCommitted, ReadCommitted, hstore, hfind', hfind]
    have hmap : (cp.sessions.set (resolveSessionIdx cp opts.sessionId)
        (applySessionUpdate e opts)).map (·.sessionId) = cp.sessions.map (·.sessionId) :=
      map_set_invariant _ cp.sessions _ e _ hget (applySessionUpdate_sessionId e opts)
    simp [hmap]
  · intro i hi
    rw [ReadSessionContent, ReadSessionContent, hstore, hfind', hfind]
    dsimp only
    rw [List.getElem?_set_ne (Ne.symm hi)]

theorem writeCommitted_ok_elim (store : List CheckpointRecord)
    (opts : WriteCommittedOptions) (store' : List CheckpointRecord)
    (h : WriteCommitted store opts = .ok store') :
    store.find? (fun r => r.checkpointId == opts.checkpointId) = none ∧
    store' = store ++ [{ checkpointId := opts.checkpointId, sessions := [writeEntry opts] }] := by
  unfold WriteCommitted at h
  split at h
  · cases h
  split at h
  · cases h
  next hnone =>
    cases h
    exact ⟨hnone, rfl⟩

theorem find?_after_write (store : List CheckpointRecord) (opts : WriteCommittedOptions)
    (hnone : store.find? (fun r => r.checkpointId == opts.checkpointId) = none) :
    List.find? (fun r => r.checkpointId == opts.checkpointId)
        (store ++ [{ checkpointId := opts.checkpointId, sessions := [writeEntry opts] }])
      = some { checkpointId := opts.checkpointId, sessions := [writeEntry opts] } := by
  rw [List.find?_append, hnone]
  simp [List.find?]

/-- Concrete write options mirroring `setupRepoForUpdate` in the update test
suite: checkpoint `a1b2c3d4e5f6`, session `session-001`, manual-commit, a
provisional transcript, one initial prompt and an initial context. -/
def demoWriteOpts : WriteCommittedOptions :=
  { checkpointId := "a1b2c3d4e5f6"
    sessionId := "session-001"
    strategy := "manual-commit"
    transcript := strBytes "provisional transcript line 1\n"
    prompts := ["initial prompt"]
    contextBytes := strBytes "initial context"
    filesTouched := [] }

/-- The metadata branch after the setup write of the update test suite. -/
def demoStore : List CheckpointRecord :=
  match WriteCommitted [] demoWriteOpts with
  | .ok s => s
  | .error _ => []

/-- Claim C1 (counterexample): the claim states that under the auto-commit
strategy a turn on the default branch produces no rewind point
(GetRewindPoints length 0).  The integration test suite contradicts it: the
auto-commit strategy is listed in `strategiesAllowingMain` (strategies that
SHOULD work on main), `strategiesBlockingMain` is empty, and the suite
expects GetRewindPoints length 1 after a turn on main — not 0. -/
theorem autoCommit_turn_on_main_not_skipped :
    ¬ (expectedTurnRewindPointsOnMain StrategyNameAutoCommit = some 0) := by decide

/-- Claim C1 (amended): under the auto-commit strategy a turn executed on the
repository's default branch IS tracked — all strategies now support working
on main: `strategiesBlockingMain` is empty, auto-commit belongs to
`strategiesAllowingMain`, a turn on main yields one rewind point and a
nested task yields two (starting + completed checkpoints). -/
theorem autoCommit_on_main_produces_rewind_points :
    strategiesBlockingMain = [] ∧
    strategiesAllowingMain.contains StrategyNameAutoCommit = true ∧
    expectedTurnRewindPointsOnMain StrategyNameAutoCommit = some 1 ∧
    expectedTaskRewindPointsOnMain StrategyNameAutoCommit = some 2 := by decide

/-- Claim C7: invoking the reset command when the strategy does not provide
the Reset capability (the `SessionResetter` assertion fails, modelled by the
`none` resetter) returns a typed silent error carrying a strategy-specific
explanation and mutates no state; for the auto-commit strategy the stderr
explanation names `git reset --hard` as the alternative. -/
theorem reset_unsupported_strategy_typed_error (st : ResetState)
    (strategyName : String) (force : Bool) :
    runResetCmd st true strategyName none force
      = (st, (handleStrategyDoesNotSupportReset strategyName).1,
         some (handleStrategyDoesNotSupportReset strategyName).2) ∧
    (∃ msg, (handleStrategyDoesNotSupportReset strategyName).2 = CmdError.silent msg) ∧
    (handleStrategyDoesNotSupportReset StrategyNameAutoCommit).1.contains
      "  git reset --hard <commit>" = true ∧
    (handleStrategyDoesNotSupportReset StrategyNameAutoCommit).2
      = CmdError.silent "auto-commit strategy does not support reset" := by
  refine ⟨rfl, ?_, by decide, by decide⟩
  unfold handleStrategyDoesNotSupportReset
  split
  · exact ⟨_, rfl⟩
  · exact ⟨_, rfl⟩

/-- Claim C8: for every codepoint sequence s, every maxRunes at least 0 and
every suffix, TruncateRunes returns s unchanged when s has at most maxRunes
runes, and otherwise returns the first max(0, maxRunes - runeCount(suffix))
runes of s followed by the suffix; the UTF-8 byte boundary of the retained
prefix always falls between codepoints (the encoded result splits into the
encoding of a codepoint-prefix of s plus the encoding of the suffix, and
that prefix encoding is a byte-prefix of the encoding of s). -/
theorem truncateRunes_codepoint_safe (s : List Char) (maxRunes : Int)
    (suffix : List Char) (h : 0 ≤ maxRunes) :
    ((s.length : Int) ≤ maxRunes → TruncateRunes s maxRunes suffix = s) ∧
    (maxRunes < (s.length : Int) →
      TruncateRunes s maxRunes suffix
        = s.take (maxRunes - (suffix.length : Int)).toNat ++ suffix ∧
      utf8EncodeList (TruncateRunes s maxRunes suffix)
        = utf8EncodeList (s.take (maxRunes - (suffix.length : Int)).toNat)
          ++ utf8EncodeList suffix ∧
      ∃ rest, utf8EncodeList s
        = utf8EncodeList (s.take (maxRunes - (suffix.length : Int)).toNat) ++ rest) := by
  constructor
  · intro hle
    simp [TruncateRunes, hle]
  · intro hgt
    have hnot : ¬ ((s.length : Int) ≤ maxRunes) := by omega
    have hres : TruncateRunes s maxRunes suffix
        = s.take (maxRunes - (suffix.length : Int)).toNat ++ suffix := by
      simp only [TruncateRunes, if_neg hnot]
      by_cases hc : maxRunes - (suffix.length : Int) < 0
      · rw [if_pos hc]
        have h0 : (maxRunes - (suffix.length : Int)).toNat = 0 := by omega
        rw [h0]
        rfl
      · rw [if_neg hc]
    refine ⟨hres, ?_, ?_⟩
    · rw [hres, utf8EncodeList_append]
    · refine ⟨utf8EncodeList (s.drop (maxRunes - (suffix.length : Int)).toNat), ?_⟩
      rw [← utf8EncodeList_append, List.take_append_drop]

/-- Witness for claim C8 at a concrete non-ASCII input: a three-rune string
truncated to 2 runes with a one-rune ellipsis suffix keeps exactly one
codepoint of the input plus the suffix. -/
theorem truncateRunes_codepoint_safe_witness :
    (0 : Int) ≤ 2 ∧ (2 : Int) < (([Char.ofNat 97, Char.ofNat 233, Char.ofNat 98] : List Char).length : Int) ∧
    TruncateRunes [Char.ofNat 97, Char.ofNat 233, Char.ofNat 98] 2 [Char.ofNat 8230]
      = ([Char.ofNat 97, Char.ofNat 233, Char.ofNat 98].take
          ((2 : Int) - (([Char.ofNat 8230] : List Char).length : Int)).toNat) ++ [Char.ofNat 8230] :=
  ⟨by decide, by decide,
   ((truncateRunes_codepoint_safe [Char.ofNat 97, Char.ofNat 233, Char.ofNat 98] 2
      [Char.ofNat 8230] (by decide)).2 (by decide)).1⟩

/-- Claim C9: for every codepoint sequence s with more than maxRunes runes:
if the suffix has at most maxRunes runes the result of TruncateRunes has
exactly maxRunes runes; if the suffix has more runes than maxRunes the
result is exactly the suffix and therefore exceeds the stated bound. -/
theorem truncateRunes_result_length (s : List Char) (maxRunes : Int)
    (suffix : List Char) (h : maxRunes < (s.length : Int)) :
    ((suffix.length : Int) ≤ maxRunes →
      ((TruncateRunes s maxRunes suffix).length : Int) = maxRunes) ∧
    (maxRunes < (suffix.length : Int) →
      TruncateRunes s maxRunes suffix = suffix ∧
      maxRunes < ((TruncateRunes s maxRunes suffix).length : Int)) := by
  have hnot : ¬ ((s.length : Int) ≤ maxRunes) := by omega
  constructor
  · intro hsuf
    simp only [TruncateRunes, if_neg hnot]
    have hc : ¬ (maxRunes - (suffix.length : Int) < 0) := by omega
    rw [if_neg hc, List.length_append, List.length_take]
    have hmin : min (maxRunes - (suffix.length : Int)).toNat s.length
        = (maxRunes - (suffix.length : Int)).toNat := by omega
    rw [hmin]
    omega
  · intro hsuf2
    have hc : maxRunes - (suffix.length : Int) < 0 := by omega
    have hres : TruncateRunes s maxRunes suffix = suffix := by
      simp only [TruncateRunes, if_neg hnot, if_pos hc]
      simp
    refine ⟨hres, ?_⟩
    rw [hres]
    omega

/-- Witness for claim C9: a five-rune string truncated to 3 with a one-rune
suffix has exactly 3 runes; truncated to 0 with a nonempty suffix the result
is the suffix, exceeding the bound. -/
theorem truncateRunes_result_length_witness :
    (3 : Int) < (([Char.ofNat 97, Char.ofNat 98, Char.ofNat 99, Char.ofNat 100,
        Char.ofNat 101] : List Char).length : Int) ∧
    ((([Char.ofNat 8230] : List Char).length : Int) ≤ 3 →
      ((TruncateRunes [Char.ofNat 97, Char.ofNat 98, Char.ofNat 99, Char.ofNat 100,
          Char.ofNat 101] 3 [Char.ofNat 8230]).length : Int) = 3) ∧
    ((0 : Int) < (([Char.ofNat 8230] : List Char).length : Int) →
      TruncateRunes [Char.ofNat 97, Char.ofNat 98, Char.ofNat 99, Char.ofNat 100,
          Char.ofNat 101] 0 [Char.ofNat 8230] = [Char.ofNat 8230] ∧
      (0 : Int) < ((TruncateRunes [Char.ofNat 97, Char.ofNat 98, Char.ofNat 99,
          Char.ofNat 100, Char.ofNat 101] 0 [Char.ofNat 8230]).length : Int)) :=
  ⟨by decide,
   (truncateRunes_result_length [Char.ofNat 97, Char.ofNat 98, Char.ofNat 99, Char.ofNat 100,
      Char.ofNat 101] 3 [Char.ofNat 8230] (by decide)).1,
   (truncateRunes_result_length [Char.ofNat 97, Char.ofNat 98, Char.ofNat 99, Char.ofNat 100,
      Char.ofNat 101] 0 [Char.ofNat 8230] (by decide)).2⟩

/-- Claim C2: for every checkpoint and transcript byte string T, a successful
UpdateCommitted with transcript = T followed by ReadSessionContent on the
same checkpoint and the updated session index returns a transcript equal to
T byte-for-byte (replace semantics, never append). -/
theorem updateCommitted_replaces_transcript (store : List CheckpointRecord)
    (opts : UpdateCommittedOptions) (T : List Nat) (store' : List CheckpointRecord)
    (hT : opts.transcript = some T)
    (h : UpdateCommitted store opts = .ok store') :
    ∃ cp c,
      store.find? (fun r => r.checkpointId == opts.checkpointId) = some cp ∧
      ReadSessionContent store' opts.checkpointId
        (resolveSessionIdx cp opts.sessionId) = .ok c ∧
      c.transcript = T := by
  obtain ⟨cp, e, hfind, hget, hread, hsum, hother⟩ := updateCommitted_read store opts store' h
  exact ⟨cp, _, hfind, hread, applySessionUpdate_transcript_of_some e opts T hT⟩

/-- Update options of the transcript-replacement test: full transcript for
checkpoint `a1b2c3d4e5f6`, session `session-001`. -/
def demoUpdateOptsC2 : UpdateCommittedOptions :=
  { checkpointId := "a1b2c3d4e5f6"
    sessionId := "session-001"
    transcript := some (strBytes "full transcript line 1\nfull transcript line 2\nfull transcript line 3\n")
    prompts := none
    contextBytes := none }

/-- The metadata branch after the transcript-replacement update. -/
def demoStoreC2 : List CheckpointRecord :=
  match UpdateCommitted demoStore demoUpdateOptsC2 with
  | .ok s => s
  | .error _ => []

set_option maxRecDepth 400000 in
/-- Witness for claim C2 at the concrete test fixture. -/
theorem updateCommitted_replaces_transcript_witness :
    demoUpdateOptsC2.transcript
      = some (strBytes "full transcript line 1\nfull transcript line 2\nfull transcript line 3\n") ∧
    UpdateCommitted demoStore demoUpdateOptsC2 = .ok demoStoreC2 ∧
    ∃ cp c,
      demoStore.find? (fun r => r.checkpointId == demoUpdateOptsC2.checkpointId) = some cp ∧
      ReadSessionContent demoStoreC2 demoUpdateOptsC2.checkpointId
        (resolveSessionIdx cp demoUpdateOptsC2.sessionId) = .ok c ∧
      c.transcript = strBytes "full transcript line 1\nfull transcript line 2\nfull transcript line 3\n" :=
  ⟨rfl, rfl,
   updateCommitted_replaces_transcript demoStore demoUpdateOptsC2 _ demoStoreC2 rfl rfl⟩

/-- Claim C3: for every existing checkpoint, an UpdateCommitted whose
session_id matches no SessionEntry of that checkpoint does not fail: the
update succeeds and the new content is applied to the SessionEntry at
index 0. -/
theorem updateCommitted_falls_back_to_index_zero (store : List CheckpointRecord)
    (opts : UpdateCommittedOptions) (cp : CheckpointRecord) (e : SessionEntry)
    (hid : ¬ opts.checkpointId = "")
    (hfind : store.find? (fun r => r.checkpointId == opts.checkpointId) = some cp)
    (hmiss : findSessionIdx opts.sessionId cp.sessions = none)
    (hget : cp.sessions[0]? = some e) :
    ∃ store', UpdateCommitted store opts = .ok store' ∧
      ReadSessionContent store' opts.checkpointId 0
        = .ok (entryContent (applySessionUpdate e opts)) := by
  have hidx : resolveSessionIdx cp opts.sessionId = 0 :=
    resolveSessionIdx_of_none cp opts.sessionId hmiss
  cases hup : UpdateCommitted store opts with
  | error err =>
    exfalso
    unfold UpdateCommitted at hup
    rw [if_neg hid, hfind] at hup
    dsimp only at hup
    rw [hidx, hget] at hup
    dsimp only at hup
    cases hup
  | ok store' =>
    refine ⟨store', rfl, ?_⟩
    obtain ⟨cp2, e2, hfind2, hget2, hread, hsum, hother⟩ :=
      updateCommitted_read store opts store' hup
    rw [hfind] at hfind2
    injection hfind2 with hcp
    subst hcp
    rw [hidx] at hget2 hread
    rw [hget] at hget2
    injection hget2 with he
    subst he
    exact hread

/-- Update options of the fallback test: session id matching no entry. -/
def demoUpdateOptsC3 : UpdateCommittedOptions :=
  { checkpointId := "a1b2c3d4e5f6"
    sessionId := "nonexistent-session"
    transcript := some (strBytes "updated via fallback\n")
    prompts := none
    contextBytes := none }

set_option maxRecDepth 400000 in
/-- Witness for claim C3 at the concrete test fixture: the session id
`nonexistent-session` matches no entry, yet the update succeeds and lands on
index 0. -/
theorem updateCommitted_falls_back_to_index_zero_witness :
    (¬ demoUpdateOptsC3.checkpointId = "") ∧
    demoStore.find? (fun r => r.checkpointId == demoUpdateOptsC3.checkpointId)
      = some { checkpointId := "a1b2c3d4e5f6", sessions := [writeEntry demoWriteOpts] } ∧
    findSessionIdx demoUpdateOptsC3.sessionId [writeEntry demoWriteOpts] = none ∧
    ([writeEntry demoWriteOpts] : List SessionEntry)[0]? = some (writeEntry demoWriteOpts) ∧
    ∃ store', UpdateCommitted demoStore demoUpdateOptsC3 = .ok store' ∧
      ReadSessionContent store' demoUpdateOptsC3.checkpointId 0
        = .ok (entryContent (applySessionUpdate (writeEntry demoWriteOpts) demoUpdateOptsC3)) :=
  ⟨by decide, rfl, rfl, rfl,
   updateCommitted_falls_back_to_index_zero demoStore demoUpdateOptsC3
     { checkpointId := "a1b2c3d4e5f6", sessions := [writeEntry demoWriteOpts] }
     (writeEntry demoWriteOpts) (by decide) rfl rfl rfl⟩

/-- Claim C4: an UpdateCommitted call that supplies only a transcript leaves
all other stored data unchanged: the root CheckpointSummary identity
(checkpoint_id, number and order of session entries) is equal before and
after, and every readable entry keeps its metadata fields (session_id,
strategy). -/
theorem updateCommitted_preserves_metadata (store : List CheckpointRecord)
    (opts : UpdateCommittedOptions) (store' : List CheckpointRecord)
    (hP : opts.prompts = none) (hC : opts.contextBytes = none)
    (h : UpdateCommitted store opts = .ok store') :
    ReadCommitted store' opts.checkpointId = ReadCommitted store opts.checkpointId ∧
    ∀ i c c', ReadSessionContent store opts.checkpointId i = .ok c →
      ReadSessionContent store' opts.checkpointId i = .ok c' →
      c'.metaSessionId = c.metaSessionId ∧ c'.metaStrategy = c.metaStrategy := by
  obtain ⟨cp, e, hfind, hget, hread, hsum, hother⟩ := updateCommitted_read store opts store' h
  refine ⟨hsum, ?_⟩
  intro i c c' hc hc'
  by_cases hi : i = resolveSessionIdx cp opts.sessionId
  · subst hi
    have hbase : ReadSessionContent store opts.checkpointId
        (resolveSessionIdx cp opts.sessionId) = .ok (entryContent e) := by
      rw [ReadSessionContent, hfind]
      dsimp only
      rw [hget]
    rw [hbase] at hc
    injection hc with hcv
    rw [hread] at hc'
    injection hc' with hcv'
    subst hcv
    subst hcv'
    exact ⟨rfl, rfl⟩
  · rw [hother i hi] at hc'
    rw [hc] at hc'
    injection hc' with hcc
    subst hcc
    exact ⟨rfl, rfl⟩

/-- Update options of the metadata-preservation test: only a transcript. -/
def demoUpdateOptsC4 : UpdateCommittedOptions :=
  { checkpointId := "a1b2c3d4e5f6"
    sessionId := "session-001"
    transcript := some (strBytes "updated transcript\n")
    prompts := none
    contextBytes := none }

/-- The metadata branch after the metadata-preservation update. -/
def demoStoreC4 : List CheckpointRecord :=
  match UpdateCommitted demoStore demoUpdateOptsC4 with
  | .ok s => s
  | .error _ => []

set_option maxRecDepth 400000 in
/-- Witness for claim C4 at the concrete test fixture. -/
theorem updateCommitted_preserves_metadata_witness :
    demoUpdateOptsC4.prompts = none ∧
    demoUpdateOptsC4.contextBytes = none ∧
    UpdateCommitted demoStore demoUpdateOptsC4 = .ok demoStoreC4 ∧
    (ReadCommitted demoStoreC4 demoUpdateOptsC4.checkpointId
       = ReadCommitted demoStore demoUpdateOptsC4.checkpointId ∧
     ∀ i c c', ReadSessionContent demoStore demoUpdateOptsC4.checkpointId i = .ok c →
       ReadSessionContent demoStoreC4 demoUpdateOptsC4.checkpointId i = .ok c' →
       c'.metaSessionId = c.metaSessionId ∧ c'.metaStrategy = c.metaStrategy) :=
  ⟨rfl, rfl, rfl,
   updateCommitted_preserves_metadata demoStore demoUpdateOptsC4 demoStoreC4 rfl rfl rfl⟩

/-- Claim C5: after every successful WriteCommitted or UpdateCommitted, the
updated SessionEntry carries a `content_hash.txt` equal to `sha256:` plus
the hex digest recomputed over the entry's current (post-update) payload. -/
theorem committed_content_hash_regenerated :
    (∀ (store : List CheckpointRecord) (wopts : WriteCommittedOptions)
       (store' : List CheckpointRecord), WriteCommitted store wopts = .ok store' →
       ∃ cp, List.find? (fun r => r.checkpointId == wopts.checkpointId) store' = some cp ∧
         cp.sessions = [writeEntry wopts] ∧ hashInvariant (writeEntry wopts)) ∧
    (∀ (store : List CheckpointRecord) (opts : UpdateCommittedOptions)
       (store' : List CheckpointRecord) (cp : CheckpointRecord),
       store.find? (fun r => r.checkpointId == opts.checkpointId) = some cp →
       UpdateCommitted store opts = .ok store' →
       ∃ cp' e', List.find? (fun r => r.checkpointId == opts.checkpointId) store' = some cp' ∧
         cp'.sessions[resolveSessionIdx cp opts.sessionId]? = some e' ∧ hashInvariant e') := by
  constructor
  · intro store wopts store' h
    obtain ⟨hnone, hstore⟩ := writeCommitted_ok_elim store wopts store' h
    refine ⟨{ checkpointId := wopts.checkpointId, sessions := [writeEntry wopts] }, ?_, rfl, rfl⟩
    rw [hstore]
    exact find?_after_write store wopts hnone
  · intro store opts store' cp hfind h
    obtain ⟨cp2, e, _, hfind2, hget, hstore⟩ := updateCommitted_ok_elim store opts store' h
    rw [hfind] at hfind2
    injection hfind2 with hcp
    subst hcp
    have hlt : resolveSessionIdx cp opts.sessionId < cp.sessions.length :=
      (List.getElem?_eq_some.mp hget).1
    refine ⟨⟨cp.checkpointId,
        cp.sessions.set (resolveSessionIdx cp opts.sessionId) (applySessionUpdate e opts)⟩,
      applySessionUpdate e opts, ?_, ?_, applySessionUpdate_hash e opts⟩
    · rw [hstore]
      exact find?_after_update store opts cp _ hfind
    · exact List.getElem?_set_eq_of_lt _ hlt

/-- Update options of the content-hash test. -/
def demoUpdateOptsC5 : UpdateCommittedOptions :=
  { checkpointId := "a1b2c3d4e5f6"
    sessionId := "session-001"
    transcript := some (strBytes "new full transcript content\n")
    prompts := none
    contextBytes := none }

/-- The metadata branch after the content-hash update. -/
def demoStoreC5 : List CheckpointRecord :=
  match UpdateCommitted demoStore demoUpdateOptsC5 with
  | .ok s => s
  | .error _ => []

set_option maxRecDepth 400000 in
/-- Witness for claim C5 at the concrete test fixture: both the setup write
and the transcript update leave a hash recomputed over the current payload. -/
theorem committed_content_hash_regenerated_witness :
    WriteCommitted [] demoWriteOpts = .ok demoStore ∧
    (∃ cp, List.find? (fun r => r.checkpointId == demoWriteOpts.checkpointId) demoStore
        = some cp ∧ cp.sessions = [writeEntry demoWriteOpts] ∧
        hashInvariant (writeEntry demoWriteOpts)) ∧
    demoStore.find? (fun r => r.checkpointId == demoUpdateOptsC5.checkpointId)
      = some { checkpointId := "a1b2c3d4e5f6", sessions := [writeEntry demoWriteOpts] } ∧
    UpdateCommitted demoStore demoUpdateOptsC5 = .ok demoStoreC5 ∧
    ∃ cp' e', List.find? (fun r => r.checkpointId == demoUpdateOptsC5.checkpointId) demoStoreC5
        = some cp' ∧
      cp'.sessions[resolveSessionIdx
        { checkpointId := "a1b2c3d4e5f6", sessions := [writeEntry demoWriteOpts] }
        demoUpdateOptsC5.sessionId]? = some e' ∧ hashInvariant e' :=
  ⟨rfl,
   committed_content_hash_regenerated.1 [] demoWriteOpts demoStore rfl,
   rfl, rfl,
   committed_content_hash_regenerated.2 demoStore demoUpdateOptsC5 demoStoreC5
     { checkpointId := "a1b2c3d4e5f6", sessions := [writeEntry demoWriteOpts] } rfl rfl⟩

/-- Claim C6: UpdateCommitted returns an error when invoked with a
checkpoint_id absent from the metadata branch, and when invoked with an
empty checkpoint_id; in both cases the metadata branch is left unchanged. -/
theorem updateCommitted_error_cases :
    (∀ (store : List CheckpointRecord) (opts : UpdateCommittedOptions),
      ¬ opts.checkpointId = "" →
      store.find? (fun r => r.checkpointId == opts.checkpointId) = none →
      UpdateCommitted store opts = .error .notFound ∧
      UpdateCommittedState store opts = store) ∧
    (∀ (store : List CheckpointRecord) (opts : UpdateCommittedOptions),
      opts.checkpointId = "" →
      UpdateCommitted store opts = .error .invalidCheckpointID ∧
      UpdateCommittedState store opts = store) := by
  constructor
  · intro store opts hid hnone
    have h1 : UpdateCommitted store opts = .error .notFound := by
      unfold UpdateCommitted
      rw [if_neg hid, hnone]
    refine ⟨h1, ?_⟩
    unfold UpdateCommittedState
    rw [h1]
  · intro store opts hid
    have h1 : UpdateCommitted store opts = .error .invalidCheckpointID := by
      unfold UpdateCommitted
      rw [if_pos hid]
    refine ⟨h1, ?_⟩
    unfold UpdateCommittedState
    rw [h1]

/-- Update options with a checkpoint id absent from the branch. -/
def demoUpdateOptsC6a : UpdateCommittedOptions :=
  { checkpointId := "deadbeef1234"
    sessionId := "session-001"
    transcript := some (strBytes "should fail")
    prompts := none
    contextBytes := none }

/-- Update options with an empty checkpoint id. -/
def demoUpdateOptsC6b : UpdateCommittedOptions :=
  { checkpointId := ""
    sessionId := "session-001"
    transcript := some (strBytes "should fail")
    prompts := none
    contextBytes := none }

set_option maxRecDepth 400000 in
/-- Witness for claim C6 at the concrete test fixtures: a nonexistent
checkpoint id and an empty checkpoint id both error and leave the branch
unchanged. -/
theorem updateCommitted_error_cases_witness :
    (¬ demoUpdateOptsC6a.checkpointId = "") ∧
    demoStore.find? (fun r => r.checkpointId == demoUpdateOptsC6a.checkpointId) = none ∧
    (UpdateCommitted demoStore demoUpdateOptsC6a = .error .notFound ∧
     UpdateCommittedState demoStore demoUpdateOptsC6a = demoStore) ∧
    demoUpdateOptsC6b.checkpointId = "" ∧
    (UpdateCommitted demoStore demoUpdateOptsC6b = .error .invalidCheckpointID ∧
     UpdateCommittedState demoStore demoUpdateOptsC6b = demoStore) :=
  ⟨by decide, rfl,
   updateCommitted_error_cases.1 demoStore demoUpdateOptsC6a (by decide) rfl,
   rfl,
   updateCommitted_error_cases.2 demoStore demoUpdateOptsC6b rfl⟩

/-- Claim C10: for every non-empty prompts list passed to a successful
UpdateCommitted, a subsequent ReadSessionContent returns the prompts as one
string equal to the elements joined by the separator of a blank line, three
hyphens and a blank line; a single prompt is returned verbatim with no
separator. -/
theorem updateCommitted_prompts_joined (store : List CheckpointRecord)
    (opts : UpdateCommittedOptions) (store' : List CheckpointRecord) (ps : List String)
    (hps : opts.prompts = some ps) (hne : ¬ ps = [])
    (h : UpdateCommitted store opts = .ok store') :
    (∃ cp c, store.find? (fun r => r.checkpointId == opts.checkpointId) = some cp ∧
      ReadSessionContent store' opts.checkpointId
        (resolveSessionIdx cp opts.sessionId) = .ok c ∧
      c.promptsText = joinPrompts ps) ∧
    (∀ p, joinPrompts [p] = p) ∧
    (∀ p q r, joinPrompts (p :: q :: r) = p ++ "\n\n---\n\n" ++ joinPrompts (q :: r)) := by
  obtain ⟨cp, e, hfind, hget, hread, hsum, hother⟩ := updateCommitted_read store opts store' h
  exact ⟨⟨cp, _, hfind, hread, applySessionUpdate_prompts_of_some e opts ps hps⟩,
    fun p => rfl, fun p q r => rfl⟩

/-- Update options of the prompts-replacement test: three prompts. -/
def demoUpdateOptsC10 : UpdateCommittedOptions :=
  { checkpointId := "a1b2c3d4e5f6"
    sessionId := "session-001"
    transcript := none
    prompts := some ["prompt 1", "prompt 2", "prompt 3"]
    contextBytes := none }

/-- The metadata branch after the prompts-replacement update. -/
def demoStoreC10 : List CheckpointRecord :=
  match UpdateCommitted demoStore demoUpdateOptsC10 with
  | .ok s => s
  | .error _ => []

set_option maxRecDepth 400000 in
/-- Witness for claim C10 at the concrete test fixture: three prompts are
joined with the separator, matching the expected string of the test. -/
theorem updateCommitted_prompts_joined_witness :
    demoUpdateOptsC10.prompts = some ["prompt 1", "prompt 2", "prompt 3"] ∧
    (¬ (["prompt 1", "prompt 2", "prompt 3"] : List String) = []) ∧
    UpdateCommitted demoStore demoUpdateOptsC10 = .ok demoStoreC10 ∧
    joinPrompts ["prompt 1", "prompt 2", "prompt 3"]
      = "prompt 1\n\n---\n\nprompt 2\n\n---\n\nprompt 3" ∧
    ((∃ cp c, demoStore.find? (fun r => r.checkpointId == demoUpdateOptsC10.checkpointId)
        = some cp ∧
      ReadSessionContent demoStoreC10 demoUpdateOptsC10.checkpointId
        (resolveSessionIdx cp demoUpdateOptsC10.sessionId) = .ok c ∧
      c.promptsText = joinPrompts ["prompt 1", "prompt 2", "prompt 3"]) ∧
     (∀ p, joinPrompts [p] = p) ∧
     (∀ p q r, joinPrompts (p :: q :: r) = p ++ "\n\n---\n\n" ++ joinPrompts (q :: r))) :=
  ⟨rfl, by decide, rfl, by decide,
   updateCommitted_prompts_joined demoStore demoUpdateOptsC10 demoStoreC10
     ["prompt 1", "prompt 2", "prompt 3"] rfl (by decide) rfl⟩
